import Mathlib

/-!
Shallow embedding of `cmd/diagnose-wi/main.go` from Harwayne/workload-identity.

Strings are Lean `String`s; Go's `strings.Split` on a single-character
separator is embedded as `goSplit`; Go slice indexing that can go out of
range is embedded with `List.get?`, a `none` result standing for the Go
panic.  External effects (Kubernetes API, GKE API, IAM API, Cloud Resource
Manager API, the local kubeconfig file and the `gcloud` CLI) are injected
through a `World` record of oracles, and `runMain` threads an explicit
trace of the network calls it performs.
-/

/-- Result of a Go function returning `(α, error)` that can additionally
panic (out-of-range slice index). -/
inductive Outcome (α : Type) where
  | ok : α → Outcome α
  | fail : String → Outcome α
  | panic : Outcome α
deriving DecidableEq, Repr

/-- Splits a list of characters around every occurrence of `c`, matching
Go's `strings.Split` with a one-character separator: the result is never
empty and has one more element than there are occurrences of `c`. -/
def splitOnChar (c : Char) : List Char → List (List Char)
  | [] => [[]]
  | x :: xs =>
    if x = c then [] :: splitOnChar c xs
    else
      match splitOnChar c xs with
      | [] => [[x]]
      | y :: ys => (x :: y) :: ys

/-- Go's `strings.Split(s, sep)` for a one-character separator. -/
def goSplit (s : String) (c : Char) : List String :=
  (splitOnChar c s.data).map (fun l => ⟨l⟩)

/-- Go's `%q` verb, modelled as plain double-quoting (the inputs handled by
the tool contain no characters that `%q` would escape). -/
def goQuote (s : String) : String := "\"" ++ s ++ "\""

/-- Go's `%v` verb on a `[]string`, e.g. `[a b c]`. -/
def goFormatList (l : List String) : String :=
  "[" ++ String.intercalate " " l ++ "]"

/-- One IAM policy binding: a role and its member strings
(`google.golang.org/api` `iam.Binding` / `cloudresourcemanager.Binding`). -/
structure Binding where
  role : String
  members : List String
deriving DecidableEq, Repr

/-- The allow-listed roles of `ksaRoles` in main.go (a `map[string]struct{}`
used only for membership tests, embedded as a list). -/
def ksaRoles : List String :=
  ["roles/iam.workloadIdentityUser",
   "roles/iam.serviceAccountTokenCreator",
   "roles/editor",
   "roles/owner"]

/-- `ksaIAMPolicyMember` from main.go:
`fmt.Sprintf("serviceAccount:%s[%s/%s]", wiPool, ns, ksaName)`. -/
def ksaIAMPolicyMember (wiPool ns ksaName : String) : String :=
  "serviceAccount:" ++ wiPool ++ "[" ++ ns ++ "/" ++ ksaName ++ "]"

/-- `gsaIAMPolicyMember` from main.go:
`fmt.Sprintf("serviceAccount:%s", gsaEmail)`. -/
def gsaIAMPolicyMember (gsaEmail : String) : String :=
  "serviceAccount:" ++ gsaEmail

/-- `getGSAAPIResource` from main.go.  Go indexes `sp[1]` after splitting on
`"@"`, which panics when the email has no `@`; the panic is `none`. -/
def getGSAAPIResource (gsaEmail : String) : Option String :=
  let sp := goSplit gsaEmail '@'
  match sp.get? 1 with
  | none => none
  | some domain =>
    let sp2 := goSplit domain '.'
    match sp2.get? 0 with
    | none => none
    | some proj => some ("projects/" ++ proj ++ "/serviceAccounts/" ++ gsaEmail)

/-- `getClusterAPIName` from main.go. -/
def getClusterAPIName (project location name : String) : String :=
  "projects/" ++ project ++ "/locations/" ++ location ++ "/clusters/" ++ name

/-- The double loop of `ksaHasAccessToGSA` over the GSA policy bindings:
true iff some binding has a member equal to `ksaMember` and a role present
in `ksaRoles`. -/
def ksaHasAccessCore (bindings : List Binding) (ksaMember : String) : Bool :=
  bindings.any (fun binding =>
    binding.members.any (fun member =>
      member == ksaMember && ksaRoles.contains binding.role))

/-- The loop of `getGSAsRolesOnProject` over the project policy bindings:
collects, in order, the role of every binding one of whose members equals
`gsaMember` (the `break` after the first matching member makes one role per
binding). -/
def gsaRolesCore (bindings : List Binding) (gsaMember : String) : List String :=
  match bindings with
  | [] => []
  | b :: bs =>
    if b.members.any (fun member => member == gsaMember) then
      b.role :: gsaRolesCore bs gsaMember
    else
      gsaRolesCore bs gsaMember

/-- Go's `strings.TrimSpace`: removes leading and trailing whitespace. -/
def goTrimSpace (s : String) : String :=
  ⟨((s.data.dropWhile Char.isWhitespace).reverse.dropWhile
      Char.isWhitespace).reverse⟩

/-- `determineProject` from main.go, the `gcloud config get-value
core/project` invocation injected as `gcloud` (raw stdout or error). -/
def determineProject (gcloud : Except String String) (projectFlagValue : String) :
    Except String String :=
  if projectFlagValue ≠ "" then
    .ok projectFlagValue
  else
    match gcloud with
    | .error e => .error e
    | .ok o => .ok (goTrimSpace o)

/-- Tags for the network calls `main` can perform (the `.Do()` / Kubernetes
client requests; client construction and local file or CLI access are not
network calls). -/
inductive NetCall where
  | podGet
  | saGet
  | gkeClusterGet
  | gsaPolicyGet
  | projPolicyGet
deriving DecidableEq, Repr

/-- Oracles standing for every external effect of the program. -/
structure World where
  /-- Outcome of `GetRESTConfig` (the config itself is irrelevant). -/
  restConfig : Except String Unit
  /-- `Pods(ns).Get(pod)`: the Pod's `Spec.ServiceAccountName`. -/
  podServiceAccount : String → String → Except String String
  /-- `ServiceAccounts(ns).Get(ksa)`: the KSA's annotations. -/
  saAnnotations : String → String → Except String (List (String × String))
  /-- `user.Current()`: the home directory. -/
  userCurrent : Except String String
  /-- `os.Open` on a path. -/
  openFile : String → Except String Unit
  /-- YAML-decoding the kubeconfig: its `current-context`. -/
  decodeKubeconfig : Except String String
  /-- `container.NewService`. -/
  gkeNewService : Except String Unit
  /-- `Projects.Locations.Clusters.Get(name).Do()`: the cluster's
  `WorkloadIdentityConfig.WorkloadPool`. -/
  clusterWIPool : String → Except String String
  /-- `iam.NewService`. -/
  iamNewService : Except String Unit
  /-- `GetIamPolicy(gsaAPIResource).Do()`: the GSA's policy bindings. -/
  gsaPolicy : String → Except String (List Binding)
  /-- `cloudresourcemanager.NewService`. -/
  crmNewService : Except String Unit
  /-- `GetIamPolicy(project, ...).Do()`: the project's policy bindings. -/
  projPolicy : String → Except String (List Binding)
  /-- `gcloud config get-value core/project`: raw stdout or error. -/
  gcloud : Except String String

/-- The annotation key `wiGSAAnnotation` in main.go
(`iam.gke.io/gcp-service-account`). -/
def wiGSAAnnKey : String := "iam.gke.io/gcp-service-account"

/-- `getPodKSA` from main.go, returning its share of the network trace. -/
def getPodKSA (w : World) (ns podName : String) :
    Except String String × List NetCall :=
  (w.podServiceAccount ns podName, [.podGet])

/-- `getKSAsWIAnotation` from main.go (source spelling has one `n`):
fetches the KSA and looks up the workload-identity annotation. -/
def getKSAsWIAnn (w : World) (ns ksaName : String) :
    Except String String × List NetCall :=
  match w.saAnnotations ns ksaName with
  | .error e => (.error e, [.saGet])
  | .ok anns =>
    match (anns.find? (fun p => p.1 == wiGSAAnnKey)).map Prod.snd with
    | none =>
      (.error ("ksa does not have the WI annotation, " ++ goQuote wiGSAAnnKey),
       [.saGet])
    | some gsa => (.ok gsa, [.saGet])

/-- `getClusterFromKubeconfig` from main.go.  Note: when `user.Current()`
fails the source returns `"", "", "", nil` — a nil error with empty
values — so the embedding returns `.ok ("", "", "")` there.  Splitting the
current context on `_` and indexing elements 1, 2, 3 panics when the
context has fewer than three underscores. -/
def getClusterFromKubeconfig (w : World) : Outcome (String × String × String) :=
  match w.userCurrent with
  | .error _ => .ok ("", "", "")
  | .ok home =>
    match w.openFile (home ++ "/.kube/config") with
    | .error e => .fail e
    | .ok _ =>
      match w.decodeKubeconfig with
      | .error e => .fail e
      | .ok ctx =>
        let sp := goSplit ctx '_'
        match sp.get? 1, sp.get? 2, sp.get? 3 with
        | some p, some l, some n => .ok (p, l, n)
        | _, _, _ => .panic

/-- `getWIPool` from main.go. -/
def getWIPool (w : World) (clusterAPIName : String) :
    Except String String × List NetCall :=
  match w.gkeNewService with
  | .error e => (.error ("creating GKE.Service: " ++ e), [])
  | .ok _ =>
    match w.clusterWIPool clusterAPIName with
    | .error e =>
      (.error ("getting GKE Cluster " ++ goQuote clusterAPIName ++ ": " ++ e),
       [.gkeClusterGet])
    | .ok pool => (.ok pool, [.gkeClusterGet])

/-- `ksaHasAccessToGSA` from main.go: fetches the GSA's IAM policy and runs
the binding/member scan; `getGSAAPIResource` may panic first. -/
def ksaHasAccessToGSA (w : World) (wiPool ns ksaName gsaEmail : String) :
    Outcome Bool × List NetCall :=
  match w.iamNewService with
  | .error e => (.fail ("creating IAM.Service: " ++ e), [])
  | .ok _ =>
    match getGSAAPIResource gsaEmail with
    | none => (.panic, [])
    | some gsaAPIResource =>
      match w.gsaPolicy gsaAPIResource with
      | .error e =>
        (.fail ("getting GSA " ++ goQuote gsaAPIResource ++ " IAMPolicy: " ++ e),
         [.gsaPolicyGet])
      | .ok bindings =>
        (.ok (ksaHasAccessCore bindings (ksaIAMPolicyMember wiPool ns ksaName)),
         [.gsaPolicyGet])

/-- `getGSAsRolesOnProject` from main.go. -/
def getGSAsRolesOnProject (w : World) (project gsaEmail : String) :
    Except String (List String) × List NetCall :=
  match w.crmNewService with
  | .error e => (.error ("creating CloudResourceManager.Service: " ++ e), [])
  | .ok _ =>
    match w.projPolicy project with
    | .error e =>
      (.error ("getting Project " ++ goQuote project ++ " IAMPolicy: " ++ e),
       [.projPolicyGet])
    | .ok bindings =>
      (.ok (gsaRolesCore bindings (gsaIAMPolicyMember gsaEmail)), [.projPolicyGet])

/-- The command-line flags read by `main`. -/
structure Flags where
  ksa : String
  ns : String
  pod : String
  project : String
  clusterProject : String
  clusterLocation : String
  clusterName : String
deriving DecidableEq, Repr

/-- Outcome of the whole process: `log.Fatal*` message, the final
`fmt.Printf` line, or a Go panic. -/
inductive MainResult where
  | fatal : String → MainResult
  | success : String → MainResult
  | panic : MainResult
deriving DecidableEq, Repr

/-- The fatal message of the flag validation in `main`. -/
def validationMsg : String := "Exactly one of --ksa and --pod must be specified."

/-- The diagnostic printed when the GSA does not grant access to the KSA. -/
def noAccessMsg (pfx ksa gsa : String) : String :=
  pfx ++ "KSA " ++ goQuote ksa ++ ", which links to GSA " ++ goQuote gsa ++
    ", but that GSA does not grant access to the KSA"

/-- The final success line of `main`. -/
def successMsg (pfx ksa gsa project : String) (roles : List String) : String :=
  pfx ++ "KSA " ++ goQuote ksa ++ ", which links to GSA " ++ goQuote gsa ++
    ", whose roles on the project " ++ goQuote project ++ " are " ++
    goFormatList roles

/-- `main` from the point where the KSA name is known (`pfx` is the
`Pod %q uses ` prefix, `tr` the network calls already made). -/
def mainAfterKSA (w : World) (f : Flags) (pfx ksa : String) (tr : List NetCall) :
    MainResult × List NetCall :=
  match getKSAsWIAnn w f.ns ksa with
  | (.error e, t) =>
    (.fatal ("Error getting the KSA\x27s WI annotation: " ++ e), tr ++ t)
  | (.ok gsa, t) =>
    let tr := tr ++ t
    match getClusterFromKubeconfig w with
    | .panic => (.panic, tr)
    | res =>
      let c := match res with
        | .ok pln => pln
        | _ => (f.clusterProject, f.clusterLocation, f.clusterName)
      match getWIPool w (getClusterAPIName c.1 c.2.1 c.2.2) with
      | (.error e, t) => (.fatal ("Error getting WI Pool: " ++ e), tr ++ t)
      | (.ok wiPool, t) =>
        let tr := tr ++ t
        match ksaHasAccessToGSA w wiPool f.ns ksa gsa with
        | (.panic, t) => (.panic, tr ++ t)
        | (.fail e, t) =>
          (.fatal ("Error checking the KSAs access on the GSA: " ++ e), tr ++ t)
        | (.ok hasAccess, t) =>
          let tr := tr ++ t
          if !hasAccess then
            (.fatal (noAccessMsg pfx ksa gsa), tr)
          else
            match determineProject w.gcloud f.project with
            | .error e => (.fatal ("Error getting project: " ++ e), tr)
            | .ok project =>
              match getGSAsRolesOnProject w project gsa with
              | (.error e, t) =>
                (.fatal ("Error getting the GSA " ++ goQuote gsa ++
                  "\x27s roles on project " ++ goQuote project ++ ": " ++ e),
                 tr ++ t)
              | (.ok roles, t) =>
                (.success (successMsg pfx ksa gsa project roles), tr ++ t)

/-- `main` after flag validation and kubeconfig construction. -/
def mainWithClient (w : World) (f : Flags) : MainResult × List NetCall :=
  if f.pod ≠ "" then
    match getPodKSA w f.ns f.pod with
    | (.error e, t) => (.fatal ("Error getting the Pod\x27s KSA: " ++ e), t)
    | (.ok ksa, t) =>
      mainAfterKSA w f ("Pod " ++ goQuote f.pod ++ " uses ") ksa t
  else
    mainAfterKSA w f "" f.ksa []

/-- `main` from main.go, returning the process outcome and the ordered
trace of network calls performed. -/
def runMain (w : World) (f : Flags) : MainResult × List NetCall :=
  if (f.ksa != "") == (f.pod != "") then
    (.fatal validationMsg, [])
  else
    match w.restConfig with
    | .error e => (.fatal ("Error building kubeconfig: " ++ e), [])
    | .ok _ => mainWithClient w f

/-! ### Lemmas about `splitOnChar` -/

theorem splitOnChar_ne_nil (c : Char) (l : List Char) : splitOnChar c l ≠ [] := by
  cases l with
  | nil => simp [splitOnChar]
  | cons x xs =>
    simp only [splitOnChar]
    split
    · simp
    · split <;> simp

theorem splitOnChar_of_not_mem (c : Char) (l : List Char) (h : c ∉ l) :
    splitOnChar c l = [l] := by
  induction l with
  | nil => rfl
  | cons x xs ih =>
    have hx : ¬ x = c := fun hh => h (by simp [hh])
    have hxs : c ∉ xs := fun hh => h (List.mem_cons_of_mem _ hh)
    simp only [splitOnChar, if_neg hx, ih hxs]

theorem splitOnChar_append (c : Char) (l₁ l₂ : List Char) (h : c ∉ l₁) :
    splitOnChar c (l₁ ++ c :: l₂) = l₁ :: splitOnChar c l₂ := by
  induction l₁ with
  | nil => simp [splitOnChar]
  | cons x xs ih =>
    have hx : ¬ x = c := fun hh => h (by simp [hh])
    have hxs : c ∉ xs := fun hh => h (List.mem_cons_of_mem _ hh)
    simp only [List.cons_append, splitOnChar, if_neg hx, List.append_eq, ih hxs]

/-- A world in which every oracle succeeds with benign data; concrete
witnesses adjust its fields. -/
def baseWorld : World where
  restConfig := .ok ()
  podServiceAccount := fun _ _ => .ok "pod-ksa"
  saAnnotations := fun _ _ => .ok [(wiGSAAnnKey, "sa@proj.iam.gserviceaccount.com")]
  userCurrent := .ok "/home/u"
  openFile := fun _ => .ok ()
  decodeKubeconfig := .ok "gke_proj_loc_name"
  gkeNewService := .ok ()
  clusterWIPool := fun _ => .ok "proj.svc.id.goog"
  iamNewService := .ok ()
  gsaPolicy := fun _ => .ok []
  crmNewService := .ok ()
  projPolicy := fun _ => .ok []
  gcloud := .ok "proj\n"

theorem length_splitOnChar (c : Char) (l : List Char) :
    (splitOnChar c l).length = l.count c + 1 := by
  induction l with
  | nil => simp [splitOnChar]
  | cons x xs ih =>
    simp only [splitOnChar]
    split
    · rename_i hx
      simp [hx, List.count_cons, ih]
    · rename_i hx
      cases hrec : splitOnChar c xs with
      | nil => exact absurd hrec (splitOnChar_ne_nil c xs)
      | cons y ys =>
        rw [hrec] at ih
        simp only [List.length_cons] at ih ⊢
        have : (x :: xs).count c = xs.count c := by
          simp [List.count_cons, hx]
        omega

/-! ### C2: format of the synthesized KSA principal -/

/-- C2: for every pool `P`, namespace `N` and KSA name `K`,
`ksaIAMPolicyMember P N K` equals exactly `serviceAccount:P[N/K]`. -/
theorem ksaIAMPolicyMember_format (wiPool ns ksaName : String) :
    ksaIAMPolicyMember wiPool ns ksaName =
      "serviceAccount:" ++ wiPool ++ "[" ++ ns ++ "/" ++ ksaName ++ "]" := rfl

/-! ### C9: getGSAAPIResource panics on emails without an `@` -/

/-- C9: for any GSA email containing no `@`, `getGSAAPIResource` hits an
out-of-range index (the Go code panics), embedded as `none`. -/
theorem getGSAAPIResource_panics_without_at (s : String) (h : '@' ∉ s.data) :
    getGSAAPIResource s = none := by
  unfold getGSAAPIResource goSplit
  rw [splitOnChar_of_not_mem _ _ h]
  rfl

theorem getGSAAPIResource_panics_without_at_witness :
    '@' ∉ ("" : String).data ∧ getGSAAPIResource "" = none :=
  ⟨by decide, getGSAAPIResource_panics_without_at "" (by decide)⟩

/-! ### C3: project extraction from the GSA email -/

/-- C3: for a GSA email `a@b.rest` (no `@` in `a`, `b` or `rest`, no `.` in
`b`), the extracted project is `b` and the API resource is
`projects/b/serviceAccounts/<full email>`. -/
theorem getGSAAPIResource_project (a b rest : String)
    (ha : '@' ∉ a.data) (hbat : '@' ∉ b.data) (hbdot : '.' ∉ b.data)
    (hr : '@' ∉ rest.data) :
    getGSAAPIResource (a ++ "@" ++ b ++ "." ++ rest) =
      some ("projects/" ++ b ++ "/serviceAccounts/" ++
        (a ++ "@" ++ b ++ "." ++ rest)) := by
  have hD : '@' ∉ b.data ++ '.' :: rest.data := by
    simp only [List.mem_append, List.mem_cons]
    push_neg
    exact ⟨hbat, by decide, hr⟩
  have h1 : ("@" : String).data = ['@'] := rfl
  have h2 : ("." : String).data = ['.'] := rfl
  have hdata : (a ++ "@" ++ b ++ "." ++ rest).data
      = a.data ++ '@' :: (b.data ++ '.' :: rest.data) := by
    simp [h1, h2]
  unfold getGSAAPIResource goSplit
  rw [hdata, splitOnChar_append _ _ _ ha, splitOnChar_of_not_mem _ _ hD]
  simp only [List.map_cons, List.map_nil, List.get?]
  rw [splitOnChar_append _ _ _ hbdot]
  simp only [List.map_cons, List.get?]

theorem getGSAAPIResource_project_witness :
    getGSAAPIResource "sa@my-proj.iam.gserviceaccount.com" =
      some ("projects/my-proj/serviceAccounts/sa@my-proj.iam.gserviceaccount.com") := by
  have h := getGSAAPIResource_project "sa" "my-proj" "iam.gserviceaccount.com"
    (by decide) (by decide) (by decide) (by decide)
  simpa using h

/-! ### C1: the access check is exact member + allow-listed role -/

theorem ksaHasAccessCore_iff (bindings : List Binding) (m : String) :
    ksaHasAccessCore bindings m = true ↔
      ∃ b ∈ bindings,
        (b.role = "roles/iam.workloadIdentityUser" ∨
         b.role = "roles/iam.serviceAccountTokenCreator" ∨
         b.role = "roles/editor" ∨
         b.role = "roles/owner") ∧ m ∈ b.members := by
  simp only [ksaHasAccessCore, List.any_eq_true, Bool.and_eq_true, beq_iff_eq,
    List.contains_iff_exists_mem_beq, ksaRoles, List.mem_cons,
    List.not_mem_nil, or_false]
  constructor
  · rintro ⟨b, hb, mem, hmem, rfl, r, hr, hbeq⟩
    exact ⟨b, hb, by
      rcases hr with h | h | h | h <;> simp_all [beq_iff_eq], hmem⟩
  · rintro ⟨b, hb, hrole, hmem⟩
    refine ⟨b, hb, m, hmem, rfl, b.role, ?_, by simp⟩
    tauto

/-- C1: with the IAM service available and the GSA's policy fetched, the
access check reports true iff some binding carries an allow-listed role and
contains exactly the synthesized KSA principal. -/
theorem ksaHasAccessToGSA_iff (w : World) (wiPool ns ksaName gsaEmail r : String)
    (bindings : List Binding)
    (hsvc : w.iamNewService = .ok ())
    (hres : getGSAAPIResource gsaEmail = some r)
    (hpol : w.gsaPolicy r = .ok bindings) :
    (ksaHasAccessToGSA w wiPool ns ksaName gsaEmail).1 = .ok true ↔
      ∃ b ∈ bindings,
        (b.role = "roles/iam.workloadIdentityUser" ∨
         b.role = "roles/iam.serviceAccountTokenCreator" ∨
         b.role = "roles/editor" ∨
         b.role = "roles/owner") ∧
        ksaIAMPolicyMember wiPool ns ksaName ∈ b.members := by
  unfold ksaHasAccessToGSA
  simp only [hsvc, hres, hpol, Outcome.ok.injEq]
  exact ksaHasAccessCore_iff bindings (ksaIAMPolicyMember wiPool ns ksaName)

theorem ksaHasAccessToGSA_iff_witness :
    (ksaHasAccessToGSA
      { baseWorld with
        gsaPolicy := fun _ => .ok
          [⟨"roles/iam.workloadIdentityUser",
            [ksaIAMPolicyMember "proj.svc.id.goog" "ns" "k"]⟩] }
      "proj.svc.id.goog" "ns" "k" "sa@proj.iam.gserviceaccount.com").1 =
      .ok true := by
  have h := ksaHasAccessToGSA_iff
    { baseWorld with
      gsaPolicy := fun _ => .ok
        [⟨"roles/iam.workloadIdentityUser",
          [ksaIAMPolicyMember "proj.svc.id.goog" "ns" "k"]⟩] }
    "proj.svc.id.goog" "ns" "k" "sa@proj.iam.gserviceaccount.com"
    "projects/proj/serviceAccounts/sa@proj.iam.gserviceaccount.com"
    [⟨"roles/iam.workloadIdentityUser",
      [ksaIAMPolicyMember "proj.svc.id.goog" "ns" "k"]⟩]
    rfl (by decide) rfl
  exact h.mpr ⟨_, List.mem_singleton.mpr rfl, Or.inl rfl, List.mem_singleton.mpr rfl⟩

/-! ### C7: roles of the GSA on the project -/

theorem gsaRolesCore_eq_filter (bindings : List Binding) (m : String) :
    gsaRolesCore bindings m =
      (bindings.filter (fun b => decide (m ∈ b.members))).map Binding.role := by
  induction bindings with
  | nil => rfl
  | cons b bs ih =>
    have hcond : (b.members.any fun member => member == m) = decide (m ∈ b.members) := by
      by_cases h : m ∈ b.members
      · simp [List.any_eq_true, beq_iff_eq, h]
      · simp only [h, decide_False]
        simp only [List.any_eq_false, beq_iff_eq]
        exact fun x hx hxm => h (hxm ▸ hx)
    by_cases h : m ∈ b.members <;>
      simp [gsaRolesCore, List.filter_cons, hcond, h, ih]

/-- C7: with the Cloud Resource Manager service available and the project
policy fetched, `getGSAsRolesOnProject` returns, in binding order, the
roles of exactly those bindings whose members contain
`serviceAccount:<email>`. -/
theorem getGSAsRolesOnProject_spec (w : World) (project gsaEmail : String)
    (bindings : List Binding)
    (hsvc : w.crmNewService = .ok ())
    (hpol : w.projPolicy project = .ok bindings) :
    getGSAsRolesOnProject w project gsaEmail =
      (.ok ((bindings.filter
          (fun b => decide (gsaIAMPolicyMember gsaEmail ∈ b.members))).map
          Binding.role),
       [.projPolicyGet]) := by
  unfold getGSAsRolesOnProject
  simp only [hsvc, hpol, gsaRolesCore_eq_filter]

theorem getGSAsRolesOnProject_spec_witness :
    getGSAsRolesOnProject
      { baseWorld with
        projPolicy := fun _ => .ok
          [⟨"roles/viewer", ["serviceAccount:sa@proj.iam.gserviceaccount.com"]⟩,
           ⟨"roles/editor", ["user:alice@example.com"]⟩,
           ⟨"roles/logging.logWriter",
            ["user:bob@example.com",
             "serviceAccount:sa@proj.iam.gserviceaccount.com"]⟩] }
      "proj" "sa@proj.iam.gserviceaccount.com" =
      (.ok ["roles/viewer", "roles/logging.logWriter"], [.projPolicyGet]) := by
  have h := getGSAsRolesOnProject_spec
    { baseWorld with
      projPolicy := fun _ => .ok
        [⟨"roles/viewer", ["serviceAccount:sa@proj.iam.gserviceaccount.com"]⟩,
         ⟨"roles/editor", ["user:alice@example.com"]⟩,
         ⟨"roles/logging.logWriter",
          ["user:bob@example.com",
           "serviceAccount:sa@proj.iam.gserviceaccount.com"]⟩] }
    "proj" "sa@proj.iam.gserviceaccount.com" _ rfl rfl
  rw [h]
  rfl

/-! ### C8: project flag short-circuits the gcloud call -/

/-- C8: a non-empty `-project` flag is returned unchanged (whatever the
`gcloud` CLI would say), and only an empty flag consults `gcloud`, trimming
its output. -/
theorem determineProject_spec (v : String) (g g2 : Except String String) :
    (v ≠ "" →
      determineProject g v = .ok v ∧ determineProject g v = determineProject g2 v) ∧
    (v = "" →
      determineProject g v =
        match g with
        | .error e => .error e
        | .ok o => .ok (goTrimSpace o)) := by
  constructor
  · intro h
    simp [determineProject, h]
  · intro h
    subst h
    simp [determineProject]

theorem determineProject_spec_witness :
    determineProject (.ok " my-proj\n") "flagged" = .ok "flagged" ∧
    determineProject (.ok " my-proj\n") "" = .ok "my-proj" := by
  constructor
  · exact ((determineProject_spec "flagged" (.ok " my-proj\n") (.error "x")).1
      (by decide)).1
  · have h := (determineProject_spec "" (.ok " my-proj\n") (.error "x")).2 rfl
    rw [h]
    rfl

/-! ### C10: getClusterFromKubeconfig panics on short contexts -/

/-- C10: when the kubeconfig is read and decoded but its current context
has fewer than three underscores, the indexing of the split segments goes
out of range: the Go code panics rather than returning an error. -/
theorem getClusterFromKubeconfig_panics (w : World) (home ctx : String)
    (hu : w.userCurrent = .ok home)
    (hf : w.openFile (home ++ "/.kube/config") = .ok ())
    (hd : w.decodeKubeconfig = .ok ctx)
    (hcount : ctx.data.count '_' < 3) :
    getClusterFromKubeconfig w = .panic := by
  unfold getClusterFromKubeconfig
  simp only [hu]
  simp only [hf]
  simp only [hd]
  have hlen : (goSplit ctx '_').length = ctx.data.count '_' + 1 := by
    unfold goSplit
    rw [List.length_map, length_splitOnChar]
  have h3 : (goSplit ctx '_')[3]? = none := List.getElem?_eq_none (by omega)
  cases h1 : (goSplit ctx '_').get? 1 <;>
    cases h2 : (goSplit ctx '_').get? 2 <;>
      simp [h1, h2, h3]

theorem getClusterFromKubeconfig_panics_witness :
    getClusterFromKubeconfig { baseWorld with decodeKubeconfig := .ok "ab_cd" } =
      .panic := by
  exact getClusterFromKubeconfig_panics _ "/home/u" "ab_cd" rfl rfl rfl (by decide)

/-! ### C4: flag validation happens before any network call -/

theorem getKSAsWIAnn_trace (w : World) (ns k : String) :
    (getKSAsWIAnn w ns k).2 = [NetCall.saGet] := by
  unfold getKSAsWIAnn
  cases h : w.saAnnotations ns k with
  | error e => simp [h]
  | ok anns =>
    cases h2 : (anns.find? (fun p => p.1 == wiGSAAnnKey)).map Prod.snd with
    | none => simp [h, h2]
    | some g => simp [h, h2]

theorem mainAfterKSA_trace_ne_nil (w : World) (f : Flags) (pfx ksa : String)
    (tr : List NetCall) : (mainAfterKSA w f pfx ksa tr).2 ≠ [] := by
  unfold mainAfterKSA
  rcases hann : getKSAsWIAnn w f.ns ksa with ⟨res, t⟩
  have ht : t = [NetCall.saGet] := by
    have h := getKSAsWIAnn_trace w f.ns ksa
    rw [hann] at h
    exact h
  subst ht
  cases res with
  | error e => simp [hann]
  | ok gsa =>
    simp only [hann]
    repeat' split
    all_goals simp

theorem mainWithClient_trace_ne_nil (w : World) (f : Flags) :
    (mainWithClient w f).2 ≠ [] := by
  unfold mainWithClient getPodKSA
  split
  · cases h : w.podServiceAccount f.ns f.pod with
    | error e => simp [h]
    | ok ksa =>
      simp only [h]
      exact mainAfterKSA_trace_ne_nil w f _ ksa _
  · exact mainAfterKSA_trace_ne_nil w f "" f.ksa []

theorem kubeconfigMsg_ne_validationMsg (e : String) :
    "Error building kubeconfig: " ++ e ≠ validationMsg := by
  intro h
  have h2 := congrArg (fun s => s.data[1]?) h
  simp only [String.data_append] at h2
  rw [List.getElem?_append_left (by decide)] at h2
  exact absurd h2 (by decide)

theorem flagCond_eq (f : Flags) :
    ((f.ksa != "") == (f.pod != "")) = false ↔
      ((f.ksa ≠ "" ∧ f.pod = "") ∨ (f.ksa = "" ∧ f.pod ≠ "")) := by
  by_cases h1 : f.ksa = "" <;> by_cases h2 : f.pod = ""
  · simp [h1, h2]
  · simp [h1, h2]
  · simp [h1, h2]
  · have e1 : (f.ksa != "") = true := by simp [bne_iff_ne, h1]
    have e2 : (f.pod != "") = true := by simp [bne_iff_ne, h2]
    simp [h1, h2, e1, e2]

/-- C4: `main` terminates fatally with the flag-validation message and no
network calls exactly when the `-ksa`/`-pod` combination is not
one-of-the-two; with exactly one non-empty it proceeds past validation. -/
theorem main_flag_validation (w : World) (f : Flags) :
    runMain w f = (.fatal validationMsg, []) ↔
      ¬ ((f.ksa ≠ "" ∧ f.pod = "") ∨ (f.ksa = "" ∧ f.pod ≠ "")) := by
  constructor
  · intro h hone
    have hcond : ((f.ksa != "") == (f.pod != "")) = false :=
      (flagCond_eq f).mpr hone
    unfold runMain at h
    rw [hcond] at h
    simp only [Bool.false_eq_true, if_false] at h
    cases hrc : w.restConfig with
    | error e =>
      rw [hrc] at h
      simp only [Prod.mk.injEq, MainResult.fatal.injEq] at h
      exact kubeconfigMsg_ne_validationMsg e h.1
    | ok u =>
      rw [hrc] at h
      exact mainWithClient_trace_ne_nil w f (congrArg Prod.snd h)
  · intro hnot
    have hcond : ((f.ksa != "") == (f.pod != "")) = true := by
      cases hb : ((f.ksa != "") == (f.pod != "")) with
      | false => exact absurd ((flagCond_eq f).mp hb) hnot
      | true => rfl
    simp [runMain, hcond]

/-! ### C5: cluster flags on kubeconfig failure -/

/-- A world in which `user.Current()` fails and in which only the cluster
named by the `-clusterProject`/`-clusterLocation`/`-clusterName` flags of
`userErrFlags` exists. -/
def userErrWorld : World :=
  { baseWorld with
    userCurrent := .error "user lookup failed"
    clusterWIPool := fun name =>
      if name == getClusterAPIName "flag-proj" "flag-loc" "flag-name" then
        .ok "flag-proj.svc.id.goog"
      else
        .error "cluster not found" }

/-- Flags naming the cluster explicitly. -/
def userErrFlags : Flags :=
  { ksa := "agent", ns := "default", pod := "", project := "p",
    clusterProject := "flag-proj", clusterLocation := "flag-loc",
    clusterName := "flag-name" }

/-- C5 counterexample to the claim on the code as written: when
`user.Current()` fails, `getClusterFromKubeconfig` returns empty strings
with a nil error (the source returns `"", "", "", nil`), so `main` takes
the success branch, queries the nonsensical cluster
`projects//locations/…` and never consults the cluster flags. -/
theorem clusterFlags_ignored_on_user_error :
    getClusterFromKubeconfig userErrWorld = .ok ("", "", "") ∧
    (runMain userErrWorld userErrFlags).1 =
      .fatal ("Error getting WI Pool: getting GKE Cluster " ++
        goQuote (getClusterAPIName "" "" "") ++ ": cluster not found") :=
  ⟨rfl, rfl⟩

/-! ### C6: lack of access is a diagnostic, not an error -/

/-- C6: when every lookup succeeds and the GSA policy has no allow-listed
binding containing the KSA principal, `ksaHasAccessToGSA` returns
`(false, nil)` — not an error — and `main` reports the formatted
diagnostic, whose text differs from the error-path message for every
wrapped error. -/
theorem noAccess_reported_as_diagnostic
    (w : World) (f : Flags) (gsa r pool : String) (bindings : List Binding)
    (hpod : f.pod = "") (hksa : f.ksa ≠ "")
    (hrest : w.restConfig = .ok ())
    (hann : getKSAsWIAnn w f.ns f.ksa = (.ok gsa, [.saGet]))
    (hclNoPanic : getClusterFromKubeconfig w ≠ .panic)
    (hgkesvc : w.gkeNewService = .ok ())
    (hcluster : ∀ name, w.clusterWIPool name = .ok pool)
    (hiam : w.iamNewService = .ok ())
    (hres : getGSAAPIResource gsa = some r)
    (hpol : w.gsaPolicy r = .ok bindings)
    (hno : ksaHasAccessCore bindings (ksaIAMPolicyMember pool f.ns f.ksa) = false) :
    ksaHasAccessToGSA w pool f.ns f.ksa gsa = (.ok false, [.gsaPolicyGet]) ∧
    (runMain w f).1 = .fatal (noAccessMsg "" f.ksa gsa) ∧
    ∀ e, noAccessMsg "" f.ksa gsa ≠
      "Error checking the KSAs access on the GSA: " ++ e := by
  have haccess : ksaHasAccessToGSA w pool f.ns f.ksa gsa =
      (.ok false, [.gsaPolicyGet]) := by
    unfold ksaHasAccessToGSA
    simp only [hiam, hres, hpol, hno]
  refine ⟨haccess, ?_, ?_⟩
  · have hcond : ((f.ksa != "") == (f.pod != "")) = false :=
      (flagCond_eq f).mpr (Or.inl ⟨hksa, hpod⟩)
    unfold runMain
    rw [hcond]
    simp only [Bool.false_eq_true, if_false, hrest]
    unfold mainWithClient
    rw [if_neg (by simp [hpod])]
    unfold mainAfterKSA
    simp only [hann]
    cases hcl : getClusterFromKubeconfig w with
    | panic => exact absurd hcl hclNoPanic
    | fail e =>
      simp only [hcl]
      unfold getWIPool
      simp only [hgkesvc, hcluster]
      simp only [haccess, Bool.not_false, if_true]
    | ok pln =>
      simp only [hcl]
      unfold getWIPool
      simp only [hgkesvc, hcluster]
      simp only [haccess, Bool.not_false, if_true]
  · intro e h
    have hK : (noAccessMsg "" f.ksa gsa).data[0]? = some 'K' := rfl
    rw [h] at hK
    have hE : ("Error checking the KSAs access on the GSA: " ++ e).data[0]? =
        some 'E' := rfl
    rw [hE] at hK
    exact absurd hK (by decide)

/-- Flags for the C6 witness world. -/
def c6Flags : Flags :=
  { ksa := "agent", ns := "default", pod := "", project := "p",
    clusterProject := "", clusterLocation := "", clusterName := "" }

theorem noAccess_reported_as_diagnostic_witness :
    ksaHasAccessToGSA baseWorld "proj.svc.id.goog" "default" "agent"
        "sa@proj.iam.gserviceaccount.com" = (.ok false, [.gsaPolicyGet]) ∧
    (runMain baseWorld c6Flags).1 =
      .fatal (noAccessMsg "" "agent" "sa@proj.iam.gserviceaccount.com") := by
  have h := noAccess_reported_as_diagnostic baseWorld c6Flags
    "sa@proj.iam.gserviceaccount.com"
    "projects/proj/serviceAccounts/sa@proj.iam.gserviceaccount.com"
    "proj.svc.id.goog" []
    rfl (by decide) rfl rfl (by decide) rfl (fun _ => rfl) rfl (by decide) rfl rfl
  exact ⟨h.1, h.2.1⟩
